import Mathlib

/-!
Verification of the openapi-typescript generator core against its
natural-language specification.  The TypeScript sources are embedded
shallowly: mutable state (the per-file import accumulator and the global
enum-name registry) is passed explicitly, `throw`n strings become
`Except.error`, and JavaScript objects keyed by strings become ordered
association lists (JS objects preserve insertion order for the
non-integer keys used here).
-/

set_option maxHeartbeats 1000000
set_option maxRecDepth 16384

namespace OpenapiTs

/-! ## JavaScript string primitives -/

/-- The character class `\w` of a JavaScript regex: `[A-Za-z0-9_]`. -/
def isWordChar (c : Char) : Bool :=
  ('A' ≤ c && c ≤ 'Z') || ('a' ≤ c && c ≤ 'z') || ('0' ≤ c && c ≤ '9') || c = '_'

/-- `capitalize` from the sources:
`(s) => s[0].toUpperCase() + s.substring(1)` (ASCII case mapping; the
generator only feeds it ASCII identifiers).  On the empty string the
original crashes; no claim touches that case. -/
def capitalize (s : String) : String :=
  match s.data with
  | [] => ""
  | c :: cs => String.mk (c.toUpper :: cs)

/-- ASCII lower-casing, the effect of `String.prototype.toLowerCase` on the
identifier characters the generator handles. -/
def jsToLower (s : String) : String := String.mk (s.data.map Char.toLower)

/-- ASCII upper-casing, the effect of `String.prototype.toUpperCase`. -/
def jsToUpper (s : String) : String := String.mk (s.data.map Char.toUpper)

/-- `JSON.stringify` applied to a string, restricted to the escapes relevant
to generated module paths, identifiers and enum values. -/
def jsonStringify (s : String) : String :=
  "\"" ++ String.join (s.data.map (fun c =>
    if c = '"' then "\\\"" else
    if c = '\\' then "\\\\" else
    if c = '\n' then "\\n" else
    if c = '\r' then "\\r" else
    if c = '\t' then "\\t" else String.singleton c)) ++ "\""

/-! ## Identifier (identifier.ts) -/

structure Identifier where
  lowerCamel : String
  upperCamel : String
  display : String
  kebab : String
deriving Repr, DecidableEq

/-- The private `Identifier` constructor: folds the word list into the four
casings exactly as the `words.forEach` loop does. -/
def Identifier.build (words : List String) : Identifier :=
  let step := fun (acc : Identifier × Bool) (word : String) =>
    let (id, isFirst) := acc
    let lower := jsToLower word
    let capital := capitalize lower
    let id :=
      if isFirst then
        { id with lowerCamel := id.lowerCamel ++ lower }
      else
        { id with
          display := id.display ++ " "
          kebab := id.kebab ++ "-"
          lowerCamel := id.lowerCamel ++ capital }
    ({ id with
        upperCamel := id.upperCamel ++ capital
        display := id.display ++ word
        kebab := id.kebab ++ lower }, false)
  (words.foldl step (⟨"", "", "", ""⟩, true)).1

/-- `s.trim()` at the character level. -/
def trimChars (l : List Char) : List Char :=
  ((l.dropWhile Char.isWhitespace).reverse.dropWhile Char.isWhitespace).reverse

/-- Split at each boundary matched by `/(?<=[^A-Z])(?=[A-Z])/`: between a
non-uppercase character and an uppercase one. -/
def splitCamelAux : List Char → List Char → List (List Char)
  | acc, [] => [acc.reverse]
  | [], b :: rest => splitCamelAux [b] rest
  | a :: acc, b :: rest =>
    if !a.isUpper && b.isUpper then
      (a :: acc).reverse :: splitCamelAux [b] rest
    else
      splitCamelAux (b :: a :: acc) rest

def splitCamel (s : String) : List String :=
  (splitCamelAux [] (trimChars s.data)).map String.mk

/-- Split `s.trim()` on `/\s+/` (maximal whitespace runs). -/
def splitWords (s : String) : List String :=
  ((trimChars s.data).splitOnP Char.isWhitespace).filter (· ≠ []) |>.map String.mk

def Identifier.fromCamel (s : String) : Identifier :=
  Identifier.build (splitCamel s)

def Identifier.fromWords (s : String) : Identifier :=
  Identifier.build (splitWords s)

/-! ## Imports (imports.ts) -/

inductive Folder where
  | api
  | client
  | model
deriving Repr, DecidableEq

def Folder.name : Folder → String
  | .api => "api"
  | .client => "client"
  | .model => "model"

/-- `ImportFolder = "api" | "client" | "model" | undefined`. -/
abbrev ImportFolder := Option Folder

/-- One entry of the `imports` object: an optional default-import alias and
the (insertion-ordered, duplicate-free) set of named imports. -/
structure ImportEntry where
  dflt : Option String
  named : List String
deriving Repr, DecidableEq

/-- The `Imports` accumulator.  The JS object keyed by module path is an
association list in insertion order. -/
structure Imports where
  folder : ImportFolder
  imports : List (String × ImportEntry)
deriving Repr, DecidableEq

/-- Replace the value stored at `file`, preserving entry order. -/
def updateAssoc (l : List (String × ImportEntry)) (file : String)
    (e : ImportEntry) : List (String × ImportEntry) :=
  l.map (fun p => if p.1 = file then (file, e) else p)

def Imports.addGlobal (i : Imports) (file name : String) (isDef : Bool) :
    Except String Imports := do
  let (entry, base) :=
    match i.imports.lookup file with
    | some e => (e, i.imports)
    | none =>
      ((⟨none, []⟩ : ImportEntry), i.imports ++ [(file, (⟨none, []⟩ : ImportEntry))])
  let entry' ←
    if !isDef then
      pure { entry with
        named := if entry.named.contains name then entry.named
                 else entry.named ++ [name] }
    else
      match entry.dflt with
      | some d =>
        if d ≠ name then Except.error "Default import already specified"
        else pure entry
      | none => pure { entry with dflt := some name }
  pure { i with imports := updateAssoc base file entry' }

def Imports.addLocal (i : Imports) (folder : ImportFolder) (file name : String)
    (isDef : Bool) : Except String Imports :=
  let relative :=
    if folder = i.folder then "."
    else match folder with
      | none => ".."
      | some f =>
        match i.folder with
        | none => "./" ++ f.name
        | some _ => "../" ++ f.name
  i.addGlobal (relative ++ "/" ++ file) name isDef

def Imports.addValidate (i : Imports) (name : String) : Except String Imports :=
  i.addLocal none "type-utils" name false

/-- The comparator `(a, b) => a.localeCompare(b)` on the ASCII module
paths and symbol names the generator emits: lexicographic comparison by
code point. -/
def charListLe : List Char → List Char → Bool
  | [], _ => true
  | _ :: _, [] => false
  | a :: as, b :: bs =>
    if a.toNat < b.toNat then true
    else if b.toNat < a.toNat then false
    else charListLe as bs

def pathLe (a b : String) : Bool := charListLe a.data b.data

/-- Normal form of one entry: the named set sorted, as the render performs
`Array.from(namedSet).sort(...)` before printing.  JS `Array.prototype.sort`
is a stable sort; it is modelled with a stable insertion sort. -/
def normalizeEntry (p : String × ImportEntry) : String × Option String × List String :=
  (p.1, p.2.dflt, p.2.named.insertionSort (fun a b => pathLe a b = true))

/-- Print one `import { ... } from "path";` statement from a normalised
entry (default alias first, then the sorted named symbols). -/
def renderNormEntry (p : String × Option String × List String) : String :=
  let (file, d, named) := p
  "import \x7b " ++
    (match d with
     | some dn => "default as " ++ dn ++ (if named.isEmpty then "" else ", ")
     | none => "") ++
    String.intercalate ", " named ++
    " \x7d from " ++ jsonStringify file ++ ";"

/-- `Imports.toString`: entries sorted by module path, each rendered with its
named imports sorted. -/
def Imports.render (i : Imports) : String :=
  "\n\n" ++
    String.join
      ((i.imports.insertionSort (fun a b => pathLe a.1 b.1 = true)).map
        (fun p => renderNormEntry (normalizeEntry p))) ++
  "\n\n"

/-! ## URL template parsing (index.ts, `operationsByTag` loop)

The loop repeatedly matches `/^(.*?)\{(\w+)\}/` against the remaining
template.  `findSplit` performs one such match: it returns the (lazy,
shortest) prefix before the first `{word}` occurrence, the parameter
name, and the remaining input. -/

inductive UrlPart where
  | literal (value : String)
  | param (value : String)
deriving Repr, DecidableEq

/-- Attempt to read `\w+` followed by `}` (the regex continuing after a
literal `{`). -/
def takeParam (cs : List Char) : Option (List Char × List Char) :=
  let w := cs.takeWhile isWordChar
  match cs.drop w.length with
  | '}' :: rest => if w.isEmpty then none else some (w, rest)
  | _ => none

/-- One match of `/^(.*?)\{(\w+)\}/`: `some (pre, name, rest)` when the
regex matches with group 1 = `pre` and group 2 = `name`, `none` when it
does not match (no parameter occurrence remains). -/
def findSplit : List Char → Option (List Char × List Char × List Char)
  | [] => none
  | c :: cs =>
    if c = '{' then
      match takeParam cs with
      | some (w, rest) => some ([], w, rest)
      | none =>
        match findSplit cs with
        | some (pre, w, rest) => some (c :: pre, w, rest)
        | none => none
    else
      match findSplit cs with
      | some (pre, w, rest) => some (c :: pre, w, rest)
      | none => none

theorem takeParam_some_lt (cs w rest : List Char) (h : takeParam cs = some (w, rest)) :
    rest.length < cs.length := by
  simp only [takeParam] at h
  split at h
  · rename_i heq
    split at h
    · exact absurd h (by simp)
    · cases h
      have h1 : ('}' :: rest).length = cs.length - (cs.takeWhile isWordChar).length := by
        rw [← heq, List.length_drop]
      simp at h1
      omega
  · exact absurd h (by simp)

theorem findSplit_rest_lt : ∀ cs pre w rest, findSplit cs = some (pre, w, rest) →
    rest.length < cs.length := by
  intro cs
  induction cs with
  | nil => intro pre w rest h; simp [findSplit] at h
  | cons c cs ih =>
    intro pre w rest h
    simp only [findSplit] at h
    split at h
    · split at h
      · rename_i heq
        cases h
        have := takeParam_some_lt _ _ _ heq
        simpa using Nat.lt_succ_of_le this.le
      · split at h
        · rename_i heq
          cases h
          have := ih _ _ _ heq
          simpa using Nat.lt_succ_of_le this.le
        · exact absurd h (by simp)
    · split at h
      · rename_i heq
        cases h
        have := ih _ _ _ heq
        simpa using Nat.lt_succ_of_le this.le
      · exact absurd h (by simp)

/-- The `while ((match = ...) !== null)` loop of `operationsByTag`: split a
path template into alternating literal/parameter parts; an empty
literal group is not pushed, and the final remainder is pushed as a
literal when nonempty. -/
def parseUrlParts (cs : List Char) : List UrlPart :=
  match h : findSplit cs with
  | some (pre, w, rest) =>
    (if pre.isEmpty then [] else [.literal (String.mk pre)]) ++
      (UrlPart.param (String.mk w) :: parseUrlParts rest)
  | none => if cs.isEmpty then [] else [.literal (String.mk cs)]
termination_by cs.length
decreasing_by exact findSplit_rest_lt _ _ _ _ h

def parseUrl (s : String) : List UrlPart := parseUrlParts s.data

theorem parseUrlParts_of_some (cs pre w rest) (h : findSplit cs = some (pre, w, rest)) :
    parseUrlParts cs =
      (if pre.isEmpty then [] else [.literal (String.mk pre)]) ++
        (UrlPart.param (String.mk w) :: parseUrlParts rest) := by
  conv_lhs => rw [parseUrlParts]
  split
  · rename_i pre2 w2 rest2 heq
    rw [h] at heq
    cases heq
    rfl
  · rename_i heq
    rw [h] at heq
    cases heq

theorem parseUrlParts_of_none (cs) (h : findSplit cs = none) :
    parseUrlParts cs = if cs.isEmpty then [] else [.literal (String.mk cs)] := by
  conv_lhs => rw [parseUrlParts]
  split
  · rename_i pre2 w2 rest2 heq
    rw [h] at heq
    cases heq
  · rfl

/-! ## Schema nodes (openapi.ts)

An `OpenAPISchema | OpenAPIReference` node.  The fields the resolver
destructures are explicit `Option`s; `additionalProperties` may be a
boolean or a nested schema/reference; `extra` records the names of any
other keys present on the JSON object (`enum`, `properties`,
`required`, ... ) — `getRuntimeType` only ever inspects their presence,
through `Object.keys`. -/

inductive Schema where
  | mk
    (ref : Option String)
    (oneOf : Option (List Schema))
    (type : Option String)
    (format : Option String)
    (minLength : Option Nat)
    (maxLength : Option Nat)
    (additional : Option (Bool ⊕ Schema))
    (items : Option Schema)
    (description : Option String)
    (extra : List String)
deriving Repr

def optKey {α : Type} (o : Option α) (k : String) : List String :=
  if o.isSome then [k] else []

/-- `Object.keys(schema)` (in a canonical order; no theorem below depends
on the ordering of an unexpected-property listing). -/
def Schema.keys : Schema → List String
  | .mk ref oneOf ty fmt minL maxL addl items desc extra =>
    optKey ref "$ref" ++ optKey oneOf "oneOf" ++ optKey ty "type" ++
    optKey fmt "format" ++ optKey minL "minLength" ++ optKey maxL "maxLength" ++
    optKey addl "additionalProperties" ++ optKey items "items" ++
    optKey desc "description" ++ extra

/-- The `props` set after the `props.delete(...)` calls listed in
`deleted`. -/
def Schema.propsRemaining (s : Schema) (deleted : List String) : List String :=
  s.keys.filter (fun k => !(deleted.contains k))

/-- The match of `/^#\/components\/schemas\/(\w+)$/` against a `$ref`
string: the captured `\w+` name, or `none` when the pointer shape is
wrong. -/
def parseRefName (r : String) : Option String :=
  let p := "#/components/schemas/"
  if r.data.take p.data.length = p.data then
    let rest := r.data.drop p.data.length
    if rest ≠ [] ∧ rest.all isWordChar then some (String.mk rest) else none
  else none

/-! ## Runtime type descriptors (runtime-type.ts)

A descriptor's three methods mutate the shared `Imports` accumulator and
may abort generation; they are embedded as `Imports`-passing `Except`
computations. -/

structure RuntimeType where
  typeName : String
  fromJson : Imports → Except String (String × Imports)
  fromJsonParam : Imports → Except String (String × Imports)
  toJson : Imports → Except String (String × Imports)

/-- A helper validator import plus its name, the pervasive
`imports.addValidate(n); return n` pattern. -/
def useValidate (n : String) (i : Imports) : Except String (String × Imports) := do
  let i1 ← i.addValidate n
  pure (n, i1)

/-- `BOOLEAN` provider. -/
def BOOLEAN : RuntimeType :=
  { typeName := "boolean"
    fromJson := useValidate "testBoolean"
    toJson := useValidate "testBoolean"
    fromJsonParam := useValidate "testBooleanString" }

/-- `NUMBER` provider. -/
def NUMBER : RuntimeType :=
  { typeName := "number"
    fromJson := useValidate "testNumber"
    toJson := useValidate "testNumber"
    fromJsonParam := useValidate "testNumberString" }

/-- `INTEGER` provider. -/
def INTEGER : RuntimeType :=
  { typeName := "number"
    fromJson := useValidate "testInteger"
    toJson := useValidate "testInteger"
    fromJsonParam := useValidate "testIntegerString" }

/-- `BIG_NUMBER` descriptor (the provider also registers the
`bignumber.js` default import at resolve time, see `getRuntimeType`). -/
def BIG_NUMBER : RuntimeType :=
  { typeName := "BigNumber"
    fromJson := useValidate "testBigNumber"
    toJson := useValidate "testBigNumber"
    fromJsonParam := useValidate "testBigNumberString" }

/-- `BIG_INTEGER` descriptor. -/
def BIG_INTEGER : RuntimeType :=
  { typeName := "BigNumber"
    fromJson := useValidate "testBigInteger"
    toJson := useValidate "testBigInteger"
    fromJsonParam := useValidate "testBigIntegerString" }

/-- `DATE` descriptor (the provider also registers the `luxon` import at
resolve time). -/
def DATE : RuntimeType :=
  { typeName := "DateTime"
    fromJson := useValidate "testDateString"
    fromJsonParam := useValidate "testDateString"
    toJson := fun i => do
      let i1 ← i.addValidate "and"
      let i2 ← i1.addValidate "success"
      let i3 ← i2.addValidate "testType"
      pure ("and(testType(DateTime), (dt) => success(dt.toUTC().toISODate()))", i3) }

/-- `DATE_TIME` descriptor. -/
def DATE_TIME : RuntimeType :=
  { typeName := "DateTime"
    fromJson := useValidate "testDateTimeString"
    fromJsonParam := useValidate "testDateTimeString"
    toJson := fun i => do
      let i1 ← i.addValidate "and"
      let i2 ← i1.addValidate "success"
      let i3 ← i2.addValidate "testType"
      pure ("and(testType(DateTime), (dt) => success(dt.toUTC().toISO()))", i3) }

/-- Run the descriptor methods of the `oneOf` branches left to right,
threading the import accumulator (the evaluation order of
`inner.map(({fromJson}) => fromJson()).join(", ")`). -/
def runAll (fs : List (Imports → Except String (String × Imports))) (i : Imports) :
    Except String (List String × Imports) :=
  match fs with
  | [] => pure ([], i)
  | f :: rest => do
    let (s, i1) ← f i
    let (ss, i2) ← runAll rest i1
    pure (s :: ss, i2)

/-- Descriptor returned for a `$ref` to a schema previously classified as a
string enum (runtime-type.ts lines 195–208): decode, param-decode and
encode are all the same `testOneOf(values<Name>)` validator. -/
def refEnumRT (ident : Identifier) : RuntimeType :=
  let fromJson := fun (i : Imports) => do
    let i1 ← i.addValidate "testOneOf"
    let i2 ← i1.addLocal (some .model) ident.kebab ("values" ++ ident.upperCamel) false
    pure ("testOneOf(values" ++ ident.upperCamel ++ ")", i2)
  { typeName := ident.upperCamel
    fromJson := fromJson
    fromJsonParam := fromJson
    toJson := fromJson }

/-- Descriptor returned for a `$ref` to an object schema (runtime-type.ts
lines 210–228): distinct `test<Name>`/`print<Name>` symbols, and a
parameter position is a hard failure. -/
def refObjectRT (context : String) (ident : Identifier) : RuntimeType :=
  { typeName := ident.upperCamel
    fromJson := fun i => do
      let i1 ← i.addLocal (some .model) ident.kebab ("test" ++ ident.upperCamel) false
      pure ("test" ++ ident.upperCamel, i1)
    fromJsonParam := fun _ =>
      Except.error ("Unexpected reference parameter '" ++ context ++ "'")
    toJson := fun i => do
      let i1 ← i.addLocal (some .model) ident.kebab ("print" ++ ident.upperCamel) false
      pure ("print" ++ ident.upperCamel, i1) }

/-- Descriptor for a `oneOf` union over the branch descriptors. -/
def oneOfRT (inner : List RuntimeType) : RuntimeType :=
  { typeName := String.intercalate " | " (inner.map (·.typeName))
    fromJson := fun i => do
      let i1 ← i.addValidate "or"
      let (ss, i2) ← runAll (inner.map (·.fromJson)) i1
      pure ("or(" ++ String.intercalate ", " ss ++ ")", i2)
    -- `fromJsonParam ? fromJsonParam() : fromJson()`: every descriptor in this
    -- code base defines `fromJsonParam`, so the conditional always picks it;
    -- likewise for `toJson`.
    fromJsonParam := fun i => do
      let i1 ← i.addValidate "or"
      let (ss, i2) ← runAll (inner.map (·.fromJsonParam)) i1
      pure ("or(" ++ String.intercalate ", " ss ++ ")", i2)
    toJson := fun i => do
      let i1 ← i.addValidate "or"
      let (ss, i2) ← runAll (inner.map (·.toJson)) i1
      pure ("or(" ++ String.intercalate ", " ss ++ ")", i2) }

/-- `${minLength}` in a template literal: `undefined` when absent. -/
def jsNumField (o : Option Nat) : String :=
  match o with
  | some n => toString n
  | none => "undefined"

/-- JavaScript truthiness of an optional number (`0` is falsy). -/
def jsTruthyNat (o : Option Nat) : Bool :=
  match o with
  | some n => n ≠ 0
  | none => false

/-- Descriptor for an unconstrained-format string schema (format absent,
`email`, `password` or `uuid`; runtime-type.ts lines 295–337).  All
three methods are the single `fromJson` closure; the zero-length and
uuid-length checks run when it is invoked, not when the descriptor is
built. -/
def stringRT (context : String) (format : Option String)
    (minLength maxLength : Option Nat) : RuntimeType :=
  let fromJson := fun (i : Imports) => do
    if minLength = some 0 then
      throw ("Unexpected minLength of 0 in '" ++ context ++ "'")
    if maxLength = some 0 then
      throw ("Unexpected maxLength of 0 in '" ++ context ++ "'")
    let (options, i1) ←
      if jsTruthyNat minLength || jsTruthyNat maxLength then do
        let i1 ← i.addValidate "testStringLength"
        pure (["testStringLength(" ++ jsNumField minLength ++ ", " ++
                jsNumField maxLength ++ ")"], i1)
      else pure (([] : List String), i)
    let (options, i2) ←
      if format = some "email" then do
        let i2 ← i1.addValidate "testEmail"
        pure (options ++ ["testEmail"], i2)
      else if format = some "uuid" then do
        if jsTruthyNat minLength then
          throw ("Unexpected minLength of UUID '" ++ context ++ "'")
        if jsTruthyNat maxLength then
          throw ("Unexpected maxLength of UUID '" ++ context ++ "'")
        let i2 ← i1.addValidate "testUuid"
        pure (options ++ ["testUuid"], i2)
      else pure (options, i1)
    let i3 ← i2.addValidate "testString"
    if options.isEmpty then
      pure ("testString", i3)
    else do
      let i4 ← i3.addValidate "and"
      pure ("and(testString," ++ String.intercalate "," options ++ ")", i4)
  { typeName := "string"
    fromJson := fromJson
    fromJsonParam := fromJson
    toJson := fromJson }

/-- Descriptor for a map schema over the value descriptor (runtime-type.ts
lines 406–422). -/
def mapRT (context : String) (inner : RuntimeType) : RuntimeType :=
  { typeName := "ReadonlyMap<string, " ++ inner.typeName ++ ">"
    fromJson := fun i => do
      let i1 ← i.addValidate "testMap"
      let (s, i2) ← inner.fromJson i1
      pure ("testMap(" ++ s ++ ")", i2)
    fromJsonParam := fun _ =>
      Except.error ("Unexpected map parameter '" ++ context ++ "'")
    toJson := fun i => do
      let i1 ← i.addValidate "printMap"
      let (s, i2) ← inner.toJson i1
      pure ("printMap(" ++ s ++ ")", i2) }

/-- Descriptor for an array schema over the item descriptor
(runtime-type.ts lines 443–460). -/
def arrayRT (inner : RuntimeType) : RuntimeType :=
  { typeName := "ReadonlyArray<" ++ inner.typeName ++ ">"
    fromJson := fun i => do
      let i1 ← i.addValidate "testArray"
      let (s, i2) ← inner.fromJson i1
      pure ("testArray(" ++ s ++ ")", i2)
    fromJsonParam := fun i => do
      let i1 ← i.addValidate "testParamArray"
      let (s, i2) ← inner.fromJsonParam i1
      pure ("testParamArray(" ++ s ++ ")", i2)
    toJson := fun i => do
      let i1 ← i.addValidate "printArray"
      let (s, i2) ← inner.toJson i1
      pure ("printArray(" ++ s ++ ")", i2) }

/-- `${format}`/`${type}` in the default-arm error messages. -/
def jsStrField (o : Option String) : String :=
  match o with
  | some s => s
  | none => "undefined"

mutual

/-- `getRuntimeType(schema, imports, context)` with the global mutable
`enumTypes` registry passed explicitly as `ets` and the `imports`
mutation threaded through the result. -/
def getRuntimeType (ets : List String) :
    Schema → Imports → String → Except String (RuntimeType × Imports)
  | s@(.mk (some r) _ _ _ _ _ _ _ _ _), imports, context => do
    -- isReference(schema)
    let props := s.propsRemaining ["$ref"]
    if props ≠ [] then
      throw ("Unexpected properties of schema reference '" ++ context ++ "': " ++
        String.intercalate "," props)
    match parseRefName r with
    | none =>
      throw ("Expected ref to be of form /^#\\/components\\/schemas\\/(\\w+)$/, but found: " ++ r)
    | some nm => do
      let ident := Identifier.fromCamel nm
      let i1 ← imports.addLocal (some .model) ident.kebab ident.upperCamel false
      if ets.contains ident.upperCamel then
        pure (refEnumRT ident, i1)
      else
        pure (refObjectRT context ident, i1)
  | s@(.mk none oneOf ty fmt minL maxL addl items _ _), imports, context =>
    match oneOf with
    | some bs => do
      let props := s.propsRemaining ["oneOf"]
      if props ≠ [] then
        throw ("Unexpected properties of oneOf schema '" ++ context ++ "': " ++
          String.intercalate "," props)
      let (inner, i1) ← getRuntimeTypeList ets bs imports context 0
      pure (oneOfRT inner, i1)
    | none =>
      -- the `switch (type)` dispatch; the recursive positions
      -- (`additionalProperties`, `items`) are split into the outer match so
      -- the recursion stays structural, with the `props` check repeated
      -- first in each arm exactly as in the single source arm
      match ty, addl, items with
      | some "string", _, _ =>
        match fmt with
        | none | some "email" | some "password" | some "uuid" => do
          let props := s.propsRemaining
            ["description", "type", "format", "minLength", "maxLength"]
          if props ≠ [] then
            throw ("Unexpected properties of string schema '" ++ context ++ "': " ++
              String.intercalate "," props)
          pure (stringRT context fmt minL maxL, imports)
        | some "date" => do
          let props := s.propsRemaining ["description", "type", "format"]
          if props ≠ [] then
            throw ("Unexpected properties of date schema '" ++ context ++ "': " ++
              String.intercalate "," props)
          let i1 ← imports.addGlobal "luxon" "DateTime" false
          pure (DATE, i1)
        | some "date-time" => do
          let props := s.propsRemaining ["description", "type", "format"]
          if props ≠ [] then
            throw ("Unexpected properties of date-time schema '" ++ context ++ "': " ++
              String.intercalate "," props)
          let i1 ← imports.addGlobal "luxon" "DateTime" false
          pure (DATE_TIME, i1)
        | some other =>
          throw ("Unexpected string format '" ++ other ++ "' of '" ++ context ++ "'")
      | some "boolean", _, _ => do
        let props := s.propsRemaining ["description", "type"]
        if props ≠ [] then
          throw ("Unexpected properties of boolean schema '" ++ context ++ "': " ++
            String.intercalate "," props)
        pure (BOOLEAN, imports)
      | some "integer", _, _ => do
        let isBig := fmt = some "big"
        let props := s.propsRemaining
          (if isBig then ["description", "type", "format"] else ["description", "type"])
        if props ≠ [] then
          throw ("Unexpected properties of integer schema '" ++ context ++ "': " ++
            String.intercalate "," props)
        if isBig then do
          let i1 ← imports.addGlobal "bignumber.js" "BigNumber" true
          pure (BIG_INTEGER, i1)
        else
          pure (INTEGER, imports)
      | some "number", _, _ => do
        let isBig := fmt = some "big"
        let props := s.propsRemaining
          (if isBig then ["description", "type", "format"] else ["description", "type"])
        if props ≠ [] then
          throw ("Unexpected properties of number schema '" ++ context ++ "': " ++
            String.intercalate "," props)
        if isBig then do
          let i1 ← imports.addGlobal "bignumber.js" "BigNumber" true
          pure (BIG_NUMBER, i1)
        else
          pure (NUMBER, imports)
      | some "object", some (.inl b), _ => do
        let props := s.propsRemaining ["description", "type", "additionalProperties"]
        if props ≠ [] then
          throw ("Unexpected properties of map schema '" ++ context ++ "': " ++
            String.intercalate "," props)
        throw ("Expected 'additionalProperties' inside '" ++ context ++
          "' to be a schema or reference, but found: " ++ (if b then "true" else "false"))
      | some "object", none, _ => do
        let props := s.propsRemaining ["description", "type", "additionalProperties"]
        if props ≠ [] then
          throw ("Unexpected properties of map schema '" ++ context ++ "': " ++
            String.intercalate "," props)
        throw ("Expected 'additionalProperties' inside '" ++ context ++ "'")
      | some "object", some (.inr sub), _ => do
        let props := s.propsRemaining ["description", "type", "additionalProperties"]
        if props ≠ [] then
          throw ("Unexpected properties of map schema '" ++ context ++ "': " ++
            String.intercalate "," props)
        let (inner, i1) ←
          getRuntimeType ets sub imports (context ++ ".additionalProperties")
        pure (mapRT context inner, i1)
      | some "array", _, none => do
        let props := s.propsRemaining ["description", "type", "items"]
        if props ≠ [] then
          throw ("Unexpected properties of array schema '" ++ context ++ "': " ++
            String.intercalate "," props)
        throw ("Expected 'items' inside '" ++ context ++ "'")
      | some "array", _, some it => do
        let props := s.propsRemaining ["description", "type", "items"]
        if props ≠ [] then
          throw ("Unexpected properties of array schema '" ++ context ++ "': " ++
            String.intercalate "," props)
        let (inner, i1) ← getRuntimeType ets it imports (context ++ ".items")
        pure (arrayRT inner, i1)
      | other, _, _ =>
        throw ("Unexpected type '" ++ jsStrField other ++ "' of '" ++ context ++ "'")
termination_by structural s _ _ => s

/-- `schema.oneOf.map((s, i) => getRuntimeType(s, imports, context +
".oneOf[" + i + "]"))`, threading the import accumulator. -/
def getRuntimeTypeList (ets : List String) :
    List Schema → Imports → String → Nat → Except String (List RuntimeType × Imports)
  | [], imports, _, _ => pure ([], imports)
  | sc :: rest, imports, context, idx => do
    let (rt, i1) ←
      getRuntimeType ets sc imports (context ++ ".oneOf[" ++ toString idx ++ "]")
    let (rts, i2) ← getRuntimeTypeList ets rest i1 context (idx + 1)
    pure (rt :: rts, i2)
termination_by structural l _ _ _ => l

end

/-! ## Operation-level checks (index.ts) -/

/-- One media-type object of a `content` record. -/
structure MediaType where
  schema : Option Schema

/-- `OpenAPIResponse | OpenAPIReference`: a `content` record keyed by
media type, or a `$ref`. -/
inductive RespOrRef where
  | ref (r : String)
  | resp (description : Option String) (content : Option (List (String × MediaType)))

/-- `getTypeFromContent(content, imports, context)` (index.ts lines
318–329): look up the `application/json` media type's schema; absent
content, media type or schema yields no runtime type and no error. -/
def getTypeFromContent (ets : List String)
    (content : Option (List (String × MediaType))) (imports : Imports)
    (context : String) : Except String (Option RuntimeType × Imports) :=
  match content with
  | none => pure (none, imports)
  | some c =>
    match c.lookup "application/json" with
    | none => pure (none, imports)
    | some mt =>
      match mt.schema with
      | none => pure (none, imports)
      | some sch => do
        let (rt, i1) ← getRuntimeType ets sch imports context
        pure (some rt, i1)

/-- The response handling duplicated verbatim in `writeApi` (index.ts
lines 467–479) and `writeClient` (lines 691–703):
`const { 200: response, ...otherResponses } = responses` followed by the
missing-200, extra-responses and reference checks, then
`getTypeFromContent` on the 200 entry. -/
def checkResponses (ets : List String) (responses : List (String × RespOrRef))
    (operationId : String) (imports : Imports) :
    Except String (Option RuntimeType × Imports) :=
  let response := responses.lookup "200"
  let otherResponses := responses.filter (fun p => p.1 ≠ "200")
  match response with
  | none => throw ("Expected 200 response of operation " ++ operationId)
  | some r =>
    if !otherResponses.isEmpty then
      throw "Unexpected responses of operation"
    else
      match r with
      | .ref _ => throw ("Unexpected reference in response of " ++ operationId)
      | .resp _ content =>
        getTypeFromContent ets content imports (operationId ++ ".200.responseBody")

/-- The `^\w+$` test. -/
def isWordString (x : String) : Bool := x ≠ "" && x.data.all isWordChar

/-- The match of `/^(\w+)\.(\w+)$/`: a single dot with a nonempty word on
each side. -/
def dotSplitWord (x : String) : Option (String × String) :=
  match (x.data.splitOn '.').map String.mk with
  | [a, b] => if isWordString a && isWordString b then some (a, b) else none
  | _ => none

/-- The `methodName` computation of `writeApi` (index.ts lines 358–370)
and `writeClient` (lines 607–619): a missing/empty operation id or an
id that is neither a bare word nor `<TagUpperCamel>.<word>` aborts;
the tag prefix is stripped. -/
def methodName (tag : Identifier) (method urlOriginal : String)
    (operationId : Option String) : Except String String :=
  match operationId with
  | none => throw ("Expected operation ID for " ++ method ++ " " ++ urlOriginal)
  | some oid =>
    if oid = "" then
      -- the empty string is falsy, hence also hits the missing-id check
      throw ("Expected operation ID for " ++ method ++ " " ++ urlOriginal)
    else if isWordString oid then
      pure oid
    else
      match dotSplitWord oid with
      | some (a, b) =>
        if a = tag.upperCamel then pure b
        else
          throw ("Expected operation ID for " ++ method ++ " " ++ urlOriginal ++
            " to start with \"" ++ tag.upperCamel ++ ".\"")
      | none =>
        throw ("Expected operation ID for " ++ method ++ " " ++ urlOriginal ++
          " to start with \"" ++ tag.upperCamel ++ ".\"")

/-- The sequence of generated method names an emitter computes for a
tag's operations (each element of `ops` is the operation's method, its
`url.original` and its optional `operationId`).  This is the only
validation either emitter performs on operation ids. -/
def writeMethodNames (tag : Identifier) :
    List (String × String × Option String) → Except String (List String)
  | [] => pure []
  | (m, u, oid) :: rest => do
    let n ← methodName tag m u oid
    let ns ← writeMethodNames tag rest
    pure (n :: ns)

/-- The value found under the `tags` key of an operation object: absent,
an array of strings, or some other JSON value (carrying its JS string
rendering for the error message). -/
inductive TagsValue where
  | undef
  | notArray (display : String)
  | arr (l : List String)

/-- JS template-literal rendering `${tags}`. -/
def renderTagsValue : TagsValue → String
  | .undef => "undefined"
  | .notArray d => d
  | .arr l => String.intercalate "," l

/-- `!Array.isArray(tags) || tags.length !== 1`. -/
def tagsNotSingle : TagsValue → Bool
  | .arr l => l.length ≠ 1
  | _ => true

/-- The tag check of the `operationsByTag` loop (index.ts lines 149–159):
the single tag name, or the `Expected 1 tag` failure. -/
def checkOperationTags (method urlString : String) (tags : TagsValue) :
    Except String String :=
  if tagsNotSingle tags then
    throw ("Expected 1 tag for " ++ method ++ " " ++ urlString ++ ", but found: " ++
      renderTagsValue tags)
  else
    match tags with
    | .arr (t :: _) => pure t
    | _ => throw "unreachable"

/-- The eight recognised HTTP methods. -/
def isHttpMethod (x : String) : Bool :=
  ["GET", "PUT", "POST", "DELETE", "OPTIONS", "HEAD", "PATCH", "TRACE"].contains x

/-- One iteration of the `for (const [method, ...] of entries)` loop: the
key is upper-cased, non-method keys are skipped (`continue`), method
keys run the tag check. -/
def processPathMethodEntry (urlString key : String) (tags : TagsValue) :
    Option (Except String String) :=
  let method := jsToUpper key
  if isHttpMethod method then some (checkOperationTags method urlString tags)
  else none

/-! ## Supporting lemmas for the URL parser -/

theorem take_takeWhile (p : Char → Bool) (l : List Char) :
    l.take (l.takeWhile p).length = l.takeWhile p := by
  induction l with
  | nil => rfl
  | cons a l ih =>
    by_cases h : p a
    · simp [List.takeWhile_cons, h, ih]
    · simp [List.takeWhile_cons, h]

theorem all_takeWhile (p : Char → Bool) (l : List Char) :
    (l.takeWhile p).all p = true := by
  induction l with
  | nil => rfl
  | cons a l ih =>
    by_cases h : p a
    · simp [List.takeWhile_cons, h, ih]
    · simp [List.takeWhile_cons, h]

theorem takeWhile_append_all (p : Char → Bool) (w l : List Char) (b : Char)
    (hw : w.all p = true) (hb : p b = false) :
    (w ++ b :: l).takeWhile p = w := by
  induction w with
  | nil => simp [List.takeWhile_cons, hb]
  | cons a w ih =>
    simp only [List.all_cons, Bool.and_eq_true] at hw
    simp [List.takeWhile_cons, hw.1, ih hw.2]

theorem takeParam_sound (cs w rest : List Char) (h : takeParam cs = some (w, rest)) :
    cs = w ++ '}' :: rest ∧ w ≠ [] ∧ w.all isWordChar = true := by
  simp only [takeParam] at h
  split at h
  · rename_i heq
    split at h
    · exact absurd h (by simp)
    · rename_i hne
      cases h
      refine ⟨?_, ?_, all_takeWhile _ _⟩
      · conv_lhs => rw [← List.take_append_drop (cs.takeWhile isWordChar).length cs]
        rw [take_takeWhile, heq]
      · simpa using hne
  · exact absurd h (by simp)

theorem takeParam_complete (w rest : List Char) (hw : w ≠ [])
    (hall : w.all isWordChar = true) :
    takeParam (w ++ '}' :: rest) = some (w, rest) := by
  have ht : (w ++ '}' :: rest).takeWhile isWordChar = w :=
    takeWhile_append_all _ _ _ _ hall (by decide)
  simp only [takeParam, ht]
  rw [List.drop_left]
  simp [List.isEmpty_iff, hw]

theorem findSplit_sound : ∀ cs pre w rest, findSplit cs = some (pre, w, rest) →
    cs = pre ++ '{' :: (w ++ '}' :: rest) ∧ w ≠ [] ∧ w.all isWordChar = true := by
  intro cs
  induction cs with
  | nil => intro pre w rest h; simp [findSplit] at h
  | cons c cs ih =>
    intro pre w rest h
    simp only [findSplit] at h
    split at h
    · rename_i hc
      split at h
      · rename_i heq
        cases h
        have := takeParam_sound _ _ _ heq
        subst hc
        simpa using this
      · split at h
        · rename_i heq
          cases h
          have := ih _ _ _ heq
          simp [this.1, this.2.1, this.2.2]
        · exact absurd h (by simp)
    · split at h
      · rename_i heq
        cases h
        have := ih _ _ _ heq
        simp [this.1, this.2.1, this.2.2]
      · exact absurd h (by simp)

/-- No `{word}` occurrence anywhere in the character list: the spec's
"template containing no parameters". -/
def noParamSub (cs : List Char) : Prop :=
  ¬ ∃ pre w rest, cs = pre ++ '{' :: (w ++ '}' :: rest) ∧ w ≠ [] ∧
    w.all isWordChar = true

theorem findSplit_complete : ∀ cs, findSplit cs = none → noParamSub cs := by
  intro cs
  induction cs with
  | nil =>
    intro _ ⟨pre, w, rest, heq, _, _⟩
    exact absurd heq (by simp)
  | cons c cs ih =>
    intro h ⟨pre, w, rest, heq, hw, hall⟩
    simp only [findSplit] at h
    cases pre with
    | nil =>
      simp only [List.nil_append, List.cons.injEq] at heq
      rw [if_pos heq.1] at h
      rw [heq.2, takeParam_complete _ _ hw hall] at h
      exact absurd h (by simp)
    | cons p pre =>
      simp only [List.cons_append, List.cons.injEq] at heq
      have hrec : findSplit cs = none := by
        split at h
        · split at h
          · exact absurd h (by simp)
          · split at h
            · exact absurd h (by simp)
            · assumption
        · split at h
          · exact absurd h (by simp)
          · assumption
      exact ih hrec ⟨pre, w, rest, heq.2, hw, hall⟩

/-! ## Claims -/

/-- C4: parsing a path template scans left to right splitting on
`{paramName}` occurrences into alternating literal and parameter
segments — the template `/widgets/{widgetId}/parts/{partId}` yields
exactly `[literal "/widgets/", param "widgetId", literal "/parts/",
param "partId"]` — and a (nonempty) template containing no parameters
collapses to the single literal consisting of the whole template. -/
theorem c4_url_template_parsing :
    parseUrl "/widgets/{widgetId}/parts/{partId}" =
      [.literal "/widgets/", .param "widgetId", .literal "/parts/", .param "partId"] ∧
    ∀ s : String, s ≠ "" → noParamSub s.data → parseUrl s = [.literal s] := by
  constructor
  · rw [parseUrl,
      parseUrlParts_of_some _ "/widgets/".data "widgetId".data "/parts/{partId}".data
        (by decide),
      parseUrlParts_of_some _ "/parts/".data "partId".data "".data (by decide),
      parseUrlParts_of_none _ (by decide)]
    decide
  · intro s hne hnp
    obtain ⟨l⟩ := s
    have hnone : findSplit l = none := by
      cases hfs : findSplit l with
      | none => rfl
      | some t =>
        obtain ⟨pre, w, rest⟩ := t
        have hs := findSplit_sound _ _ _ _ hfs
        exact absurd ⟨pre, w, rest, hs.1, hs.2.1, hs.2.2⟩ hnp
    have hl : l ≠ [] := fun hl => hne (by simp [hl])
    rw [parseUrl, parseUrlParts_of_none _ hnone]
    simp [List.isEmpty_iff, hl]

/-- Witness for C4 at the parameterless template `/health`. -/
theorem c4_url_template_parsing_witness :
    ("/health" : String) ≠ "" ∧ parseUrl "/health" = [.literal "/health"] :=
  ⟨by decide,
    c4_url_template_parsing.2 "/health" (by decide) (findSplit_complete _ (by rfl))⟩

/-- The spec's four-way relative-path rule (§4.2), stated in the spec's
own case order for comparison with `Imports.addLocal`: same folder →
`./file`; target is root → `../file`; self is root →
`./targetFolder/file`; otherwise `../targetFolder/file`. -/
def specFourWayPath (self target : ImportFolder) (file : String) : String :=
  if target = self then "./" ++ file
  else
    match target with
    | none => "../" ++ file
    | some f =>
      if self = none then "./" ++ f.name ++ "/" ++ file
      else "../" ++ f.name ++ "/" ++ file

/-- C7: for every import set and every `addLocal(targetFolder, file,
symbol)` call, the registered module path is the one computed by the
spec's fixed four-way rule, and the registration is exactly the
corresponding `addGlobal` call. -/
theorem c7_addLocal_four_way (i : Imports) (target : ImportFolder)
    (file name : String) (d : Bool) :
    i.addLocal target file name d =
      i.addGlobal (specFourWayPath i.folder target file) name d := by
  unfold Imports.addLocal specFourWayPath
  cases target with
  | none =>
    cases hf : i.folder with
    | none => simp
    | some g => simp [hf]
  | some f =>
    cases hf : i.folder with
    | none => simp [hf]
    | some g =>
      by_cases hfg : f = g
      · simp [hf, hfg]
      · simp [hf, hfg, Option.some_inj]

/-- C9: for every path template and HTTP-method operation under it, the
operation-extraction loop fails with the `Expected 1 tag` error naming
the method and the path unless the operation declares exactly one tag;
a missing `tags` field, a non-array `tags` field, an empty tag array
and a multi-element tag array all take the failing branch. -/
theorem c9_single_tag_required (key urlString : String) (tags : TagsValue)
    (hm : isHttpMethod (jsToUpper key) = true) :
    (tagsNotSingle tags = true →
      processPathMethodEntry urlString key tags =
        some (.error ("Expected 1 tag for " ++ jsToUpper key ++ " " ++ urlString ++
          ", but found: " ++ renderTagsValue tags))) ∧
    (∀ t, tags = .arr [t] →
      processPathMethodEntry urlString key tags = some (.ok t)) ∧
    tagsNotSingle .undef = true ∧
    (∀ d, tagsNotSingle (.notArray d) = true) ∧
    tagsNotSingle (.arr []) = true ∧
    (∀ t1 t2 ts, tagsNotSingle (.arr (t1 :: t2 :: ts)) = true) := by
  refine ⟨?_, ?_, rfl, fun d => rfl, rfl, fun t1 t2 ts => by simp [tagsNotSingle]⟩
  · intro hbad
    simp only [processPathMethodEntry, hm, checkOperationTags, hbad, if_true, if_pos]
    rfl
  · intro t ht
    subst ht
    simp only [processPathMethodEntry, hm, checkOperationTags, tagsNotSingle]
    rfl

/-- Witness for C9: `get` under `/widgets` with zero tags fails naming
`GET /widgets`; with exactly one tag it succeeds. -/
theorem c9_single_tag_required_witness :
    processPathMethodEntry "/widgets" "get" (.arr []) =
      some (.error ("Expected 1 tag for " ++ jsToUpper "get" ++ " " ++ "/widgets" ++
        ", but found: " ++ renderTagsValue (.arr []))) ∧
    processPathMethodEntry "/widgets" "get" (.arr ["Widget"]) = some (.ok "Widget") :=
  ⟨(c9_single_tag_required "get" "/widgets" (.arr []) (by decide)).1 (by decide),
   (c9_single_tag_required "get" "/widgets" (.arr ["Widget"]) (by decide)).2.1 "Widget" rfl⟩

/-! ## Supporting lemmas: named (non-default) registrations never fail -/

theorem addGlobal_named_ok (i : Imports) (f n : String) :
    ∃ j, i.addGlobal f n false = .ok j := by
  cases h : i.imports.lookup f with
  | none => exact ⟨_, by unfold Imports.addGlobal; rw [h]; rfl⟩
  | some e => exact ⟨_, by unfold Imports.addGlobal; rw [h]; rfl⟩

theorem addLocal_named_ok (i : Imports) (fo : ImportFolder) (f n : String) :
    ∃ j, i.addLocal fo f n false = .ok j := by
  unfold Imports.addLocal
  exact addGlobal_named_ok i _ n

theorem addValidate_ok (i : Imports) (n : String) :
    ∃ j, i.addValidate n = .ok j :=
  addLocal_named_ok i none "type-utils" n

/-- C1 (amended): a `$ref` to a schema NOT classified as a string enum
resolves to the object-reference descriptor, whose `fromJsonParam`
always aborts with the unexpected-reference-parameter error naming the
context; a `$ref` to an enum-classified schema does not fail (see the
counterexample). -/
theorem c1_ref_param_rejected (ets : List String) (r nm ctx : String) (imports : Imports)
    (h : parseRefName r = some nm)
    (hne : (Identifier.fromCamel nm).upperCamel ∉ ets) :
    ∃ rt i1,
      getRuntimeType ets (Schema.mk (some r) none none none none none none none none [])
        imports ctx = .ok (rt, i1) ∧
      rt = refObjectRT ctx (Identifier.fromCamel nm) ∧
      ∀ j, rt.fromJsonParam j =
        .error ("Unexpected reference parameter '" ++ ctx ++ "'") := by
  obtain ⟨i1, hi1⟩ := addLocal_named_ok imports (some .model)
    (Identifier.fromCamel nm).kebab (Identifier.fromCamel nm).upperCamel
  refine ⟨refObjectRT ctx (Identifier.fromCamel nm), i1, ?_, rfl, fun j => rfl⟩
  simp [getRuntimeType, Schema.propsRemaining, Schema.keys, optKey, h, hi1, hne]

/-- Counterexample to C1 as stated: with `Status` registered in the enum
registry, the descriptor for `$ref: #/components/schemas/Status` has a
`fromJsonParam` that succeeds (returning the `testOneOf` validator)
instead of failing. -/
theorem c1_counterexample :
    ((do
      let (rt, i) ← getRuntimeType ["Status"]
        (Schema.mk (some "#/components/schemas/Status") none none none none none none
          none none [])
        (Imports.mk (some .api) []) "getWidget.query.status"
      rt.fromJsonParam i : Except String (String × Imports)).map Prod.fst) =
      .ok "testOneOf(valuesStatus)" := by rfl

/-- Witness for C1 (amended) at `$ref: #/components/schemas/User` with an
empty enum registry. -/
theorem c1_ref_param_rejected_witness :
    parseRefName "#/components/schemas/User" = some "User" ∧
    ((Identifier.fromCamel "User").upperCamel ∉ ([] : List String)) ∧
    (∃ rt i1,
      getRuntimeType [] (Schema.mk (some "#/components/schemas/User") none none none
          none none none none none [])
        (Imports.mk (some .client) []) "Widget.owner" = .ok (rt, i1) ∧
      rt = refObjectRT "Widget.owner" (Identifier.fromCamel "User") ∧
      ∀ j, rt.fromJsonParam j =
        .error ("Unexpected reference parameter '" ++ "Widget.owner" ++ "'")) :=
  ⟨rfl, by decide,
    c1_ref_param_rejected [] _ "User" "Widget.owner" _ rfl (by decide)⟩

/-- C6: a `$ref` to a schema classified as a string enum yields a
descriptor whose `fromJson` and `toJson` (and `fromJsonParam`) are the
same function, producing the identical `testOneOf(values<Name>)`
expression. -/
theorem c6_enum_ref_symmetry (ets : List String) (r nm ctx : String) (imports : Imports)
    (h : parseRefName r = some nm)
    (he : (Identifier.fromCamel nm).upperCamel ∈ ets) :
    ∃ i1,
      getRuntimeType ets (Schema.mk (some r) none none none none none none none none [])
        imports ctx = .ok (refEnumRT (Identifier.fromCamel nm), i1) ∧
      (refEnumRT (Identifier.fromCamel nm)).toJson =
        (refEnumRT (Identifier.fromCamel nm)).fromJson ∧
      (refEnumRT (Identifier.fromCamel nm)).fromJsonParam =
        (refEnumRT (Identifier.fromCamel nm)).fromJson ∧
      ∀ j, ((refEnumRT (Identifier.fromCamel nm)).fromJson j).map Prod.fst =
        .ok ("testOneOf(values" ++ (Identifier.fromCamel nm).upperCamel ++ ")") := by
  obtain ⟨i1, hi1⟩ := addLocal_named_ok imports (some .model)
    (Identifier.fromCamel nm).kebab (Identifier.fromCamel nm).upperCamel
  refine ⟨i1, ?_, rfl, rfl, fun j => ?_⟩
  · simp [getRuntimeType, Schema.propsRemaining, Schema.keys, optKey, h, hi1, he]
  · obtain ⟨j1, h1⟩ := addValidate_ok j "testOneOf"
    obtain ⟨j2, h2⟩ := addLocal_named_ok j1 (some .model) (Identifier.fromCamel nm).kebab
      ("values" ++ (Identifier.fromCamel nm).upperCamel)
    simp [refEnumRT, h1, h2, Except.map, Bind.bind, Except.bind]
    rfl

/-- Witness for C6 at `$ref: #/components/schemas/Status` with `Status`
registered as an enum. -/
theorem c6_enum_ref_symmetry_witness :
    parseRefName "#/components/schemas/Status" = some "Status" ∧
    ((Identifier.fromCamel "Status").upperCamel ∈ ["Status"]) ∧
    (∃ i1,
      getRuntimeType ["Status"]
        (Schema.mk (some "#/components/schemas/Status") none none none none none none
          none none [])
        (Imports.mk (some .model) []) "Widget.status" =
          .ok (refEnumRT (Identifier.fromCamel "Status"), i1) ∧
      (refEnumRT (Identifier.fromCamel "Status")).toJson =
        (refEnumRT (Identifier.fromCamel "Status")).fromJson ∧
      (refEnumRT (Identifier.fromCamel "Status")).fromJsonParam =
        (refEnumRT (Identifier.fromCamel "Status")).fromJson ∧
      ∀ j, ((refEnumRT (Identifier.fromCamel "Status")).fromJson j).map Prod.fst =
        .ok ("testOneOf(values" ++ (Identifier.fromCamel "Status").upperCamel ++ ")")) :=
  ⟨rfl, by decide,
    c6_enum_ref_symmetry ["Status"] _ "Status" "Widget.status" _ rfl (by decide)⟩

/-- C10: for an unconstrained-format string schema (format absent,
`email`, `password` or `uuid`), `getRuntimeType` succeeds even when
`minLength`/`maxLength` is `0` (leaving the import accumulator
untouched), the three descriptor methods are the same function, and the
zero-length and uuid-with-length failures (naming the context) only
happen when that function is invoked. -/
theorem c10_deferred_string_checks (ets : List String) (ctx : String)
    (fmt : Option String) (minL maxL : Option Nat) (imports : Imports)
    (hfmt : fmt = none ∨ fmt = some "email" ∨ fmt = some "password" ∨ fmt = some "uuid") :
    getRuntimeType ets
        (Schema.mk none none (some "string") fmt minL maxL none none none [])
        imports ctx = .ok (stringRT ctx fmt minL maxL, imports) ∧
    (stringRT ctx fmt minL maxL).fromJsonParam = (stringRT ctx fmt minL maxL).fromJson ∧
    (stringRT ctx fmt minL maxL).toJson = (stringRT ctx fmt minL maxL).fromJson ∧
    (minL = some 0 → ∀ j, (stringRT ctx fmt minL maxL).fromJson j =
      .error ("Unexpected minLength of 0 in '" ++ ctx ++ "'")) ∧
    (minL ≠ some 0 → maxL = some 0 → ∀ j, (stringRT ctx fmt minL maxL).fromJson j =
      .error ("Unexpected maxLength of 0 in '" ++ ctx ++ "'")) ∧
    (fmt = some "uuid" → ∀ n, n ≠ 0 → minL = some n → maxL ≠ some 0 →
      ∀ j, (stringRT ctx fmt minL maxL).fromJson j =
        .error ("Unexpected minLength of UUID '" ++ ctx ++ "'")) ∧
    (fmt = some "uuid" → minL = none → ∀ n, n ≠ 0 → maxL = some n →
      ∀ j, (stringRT ctx fmt minL maxL).fromJson j =
        .error ("Unexpected maxLength of UUID '" ++ ctx ++ "'")) := by
  refine ⟨?_, rfl, rfl, ?_, ?_, ?_, ?_⟩
  · rcases hfmt with h | h | h | h <;> subst h <;>
      cases minL <;> cases maxL <;>
      simp [getRuntimeType, Schema.propsRemaining, Schema.keys, optKey] <;> rfl
  · intro h0 j
    subst h0
    rfl
  · intro hmin hmax j
    subst hmax
    simp [stringRT, hmin]
    rfl
  · intro hu n hn hmin hmax j
    subst hu; subst hmin
    obtain ⟨j1, h1⟩ := addValidate_ok j "testStringLength"
    have hne : (some n = some 0) = False := by simp [hn]
    have ht : jsTruthyNat (some n) = true := by simp [jsTruthyNat, hn]
    simp [stringRT, hne, hmax, ht, h1, Bind.bind, Except.bind]
    rfl
  · intro hu hmin n hn hmax j
    subst hu; subst hmin; subst hmax
    obtain ⟨j1, h1⟩ := addValidate_ok j "testStringLength"
    have hne : (some n = some 0) = False := by simp [hn]
    have ht : jsTruthyNat (some n) = true := by simp [jsTruthyNat, hn]
    simp [stringRT, hne, ht, h1, Bind.bind, Except.bind]
    rfl

/-- Witness for C10: a zero `minLength` and a `uuid` with a `minLength`
both build a descriptor successfully and only fail when the expression
is requested. -/
theorem c10_deferred_string_checks_witness :
    getRuntimeType []
        (Schema.mk none none (some "string") none (some 0) none none none none [])
        (Imports.mk (some .model) []) "Widget.name" =
      .ok (stringRT "Widget.name" none (some 0) none, Imports.mk (some .model) []) ∧
    (stringRT "Widget.name" none (some 0) none).fromJson (Imports.mk (some .model) []) =
      .error ("Unexpected minLength of 0 in '" ++ "Widget.name" ++ "'") ∧
    (stringRT "c" (some "uuid") (some 3) none).fromJson (Imports.mk none []) =
      .error ("Unexpected minLength of UUID '" ++ "c" ++ "'") :=
  ⟨(c10_deferred_string_checks [] "Widget.name" none (some 0) none
      (Imports.mk (some .model) []) (Or.inl rfl)).1,
   (c10_deferred_string_checks [] "Widget.name" none (some 0) none
      (Imports.mk (some .model) []) (Or.inl rfl)).2.2.2.1 rfl _,
   (c10_deferred_string_checks [] "c" (some "uuid") (some 3) none
      (Imports.mk none []) (Or.inr (Or.inr (Or.inr rfl)))).2.2.2.2.2.1 rfl 3
      (by decide) rfl (by decide) _⟩

/-- C2 (amended): both emitters fail unless the operation's responses
contain a `200` entry and no other status code; the missing-`200` error
names the operation, while the extra-status-code error is the fixed
string `Unexpected responses of operation`, which does not name it; and
JSON content is NOT required — a lone `200` entry without content
succeeds, producing no return type. -/
theorem c2_responses_rule (ets : List String) (responses : List (String × RespOrRef))
    (opId : String) (imports : Imports) :
    (responses.lookup "200" = none →
      checkResponses ets responses opId imports =
        .error ("Expected 200 response of operation " ++ opId)) ∧
    (∀ r, responses.lookup "200" = some r →
      (responses.filter (fun p => p.1 ≠ "200")).isEmpty = false →
      checkResponses ets responses opId imports =
        .error "Unexpected responses of operation") ∧
    (∀ d, responses = [("200", .resp d none)] →
      checkResponses ets responses opId imports = .ok (none, imports)) := by
  refine ⟨?_, ?_, ?_⟩
  · intro h
    simp [checkResponses, h]
    rfl
  · intro r hr ho
    simp only [checkResponses, hr]
    rw [ho]
    rfl
  · intro d hr
    subst hr
    rfl

/-- Counterexample to C2 as stated: a response record consisting of
exactly one `200` entry with no JSON content does NOT fail generation
(the operation simply gets no return type), and the extra-status-code
failure message does not name the operation. -/
theorem c2_counterexample :
    (checkResponses [] [("200", RespOrRef.resp none none)] "getWidget"
      (Imports.mk (some .api) [])).toOption.isSome = true ∧
    checkResponses []
      [("200", RespOrRef.resp none none), ("404", RespOrRef.resp none none)]
      "getWidget" (Imports.mk (some .api) []) =
      .error "Unexpected responses of operation" := by
  exact ⟨rfl, rfl⟩

/-- Witness for C2 (amended) at concrete response records. -/
theorem c2_responses_rule_witness :
    checkResponses [] [] "getWidget" (Imports.mk (some .api) []) =
      .error ("Expected 200 response of operation " ++ "getWidget") ∧
    checkResponses []
      [("200", RespOrRef.resp none none), ("404", RespOrRef.resp none none)]
      "listWidgets" (Imports.mk (some .api) []) =
      .error "Unexpected responses of operation" ∧
    checkResponses [] [("200", RespOrRef.resp none none)] "deleteWidget"
      (Imports.mk (some .api) []) = .ok (none, Imports.mk (some .api) []) :=
  ⟨(c2_responses_rule [] [] "getWidget" (Imports.mk (some .api) [])).1 rfl,
   (c2_responses_rule [] _ "listWidgets" (Imports.mk (some .api) [])).2.1
     (RespOrRef.resp none none) rfl rfl,
   (c2_responses_rule [] _ "deleteWidget" (Imports.mk (some .api) [])).2.2 none rfl⟩

/-- `writeMethodNames` distributes over list append: validating a
concatenation validates the pieces independently (no cross-operation
state, hence no duplicate detection). -/
theorem writeMethodNames_append (tag : Identifier)
    (l1 l2 : List (String × String × Option String)) :
    writeMethodNames tag (l1 ++ l2) =
      (do
        let ns1 ← writeMethodNames tag l1
        let ns2 ← writeMethodNames tag l2
        pure (ns1 ++ ns2)) := by
  induction l1 with
  | nil =>
    cases h2 : writeMethodNames tag l2 <;>
      simp [h2, writeMethodNames, Bind.bind, Except.bind] <;> rfl
  | cons op l1 ih =>
    obtain ⟨m, u, oid⟩ := op
    cases hm : methodName tag m u oid <;>
      cases h1 : writeMethodNames tag l1 <;>
      cases h2 : writeMethodNames tag l2 <;>
      simp [List.cons_append, writeMethodNames, ih, hm, h1, h2,
        Bind.bind, Except.bind] <;>
      rfl

/-- C3 (amended): operation identifiers must be syntactically valid — a
bare `\w+` word is accepted as-is, `<TagUpperCamel>.<word>` is accepted
with the prefix stripped, anything else (including a missing id and a
wrong-tag prefix) aborts naming the method and path — but duplicate
identifiers within a tag are NOT detected: validating the same
operation list twice over succeeds, generating the same method names
twice. -/
theorem c3_operation_id_rule (tag : Identifier) (m u : String) :
    (methodName tag m u none =
      .error ("Expected operation ID for " ++ m ++ " " ++ u)) ∧
    (∀ oid, isWordString oid = true → methodName tag m u (some oid) = .ok oid) ∧
    (∀ oid a b, isWordString oid = false → dotSplitWord oid = some (a, b) →
      a = tag.upperCamel → methodName tag m u (some oid) = .ok b) ∧
    (∀ oid a b, isWordString oid = false → dotSplitWord oid = some (a, b) →
      a ≠ tag.upperCamel → methodName tag m u (some oid) =
        .error ("Expected operation ID for " ++ m ++ " " ++ u ++
          " to start with \"" ++ tag.upperCamel ++ ".\"")) ∧
    (∀ oid, oid ≠ "" → isWordString oid = false → dotSplitWord oid = none →
      methodName tag m u (some oid) =
        .error ("Expected operation ID for " ++ m ++ " " ++ u ++
          " to start with \"" ++ tag.upperCamel ++ ".\"")) ∧
    (∀ ops ns, writeMethodNames tag ops = .ok ns →
      writeMethodNames tag (ops ++ ops) = .ok (ns ++ ns)) := by
  have hword_ne : ∀ oid, isWordString oid = true → oid ≠ "" := by
    intro oid h
    intro he
    subst he
    simp [isWordString] at h
  refine ⟨rfl, ?_, ?_, ?_, ?_, ?_⟩
  · intro oid h
    simp [methodName, hword_ne oid h, h]
    rfl
  · intro oid a b hw hd ha
    have hne : oid ≠ "" := by
      intro he
      subst he
      simp [dotSplitWord, List.splitOn] at hd
    simp [methodName, hne, hw, hd, ha]
    rfl
  · intro oid a b hw hd ha
    have hne : oid ≠ "" := by
      intro he
      subst he
      simp [dotSplitWord, List.splitOn] at hd
    simp [methodName, hne, hw, hd, ha]
    rfl
  · intro oid hne hw hd
    simp [methodName, hne, hw, hd]
    rfl
  · intro ops ns h
    rw [writeMethodNames_append tag ops ops, h]
    rfl

/-- Counterexample to C3 as stated: two operations of one tag sharing the
operation id `getWidget` pass validation, yielding the method name
twice — no duplicate check aborts generation. -/
theorem c3_counterexample :
    writeMethodNames (Identifier.fromWords "widget")
      [("GET", "/widgets", some "getWidget"), ("POST", "/widgets", some "getWidget")] =
      .ok ["getWidget", "getWidget"] := by rfl

/-- Witness for C3 (amended): a prefixed id is stripped, a wrong prefix
fails, and a duplicated list still validates. -/
theorem c3_operation_id_rule_witness :
    methodName (Identifier.fromWords "widget") "GET" "/widgets"
      (some "Widget.getWidget") = .ok "getWidget" ∧
    methodName (Identifier.fromWords "widget") "GET" "/widgets"
      (some "Pet.getWidget") =
      .error ("Expected operation ID for " ++ "GET" ++ " " ++ "/widgets" ++
        " to start with \"" ++ (Identifier.fromWords "widget").upperCamel ++ ".\"") ∧
    writeMethodNames (Identifier.fromWords "widget")
      ([("GET", "/widgets", some "getWidget")] ++ [("GET", "/widgets", some "getWidget")]) =
      .ok (["getWidget"] ++ ["getWidget"]) :=
  ⟨(c3_operation_id_rule (Identifier.fromWords "widget") "GET" "/widgets").2.2.1
      "Widget.getWidget" "Widget" "getWidget" (by decide) (by decide) (by decide),
   (c3_operation_id_rule (Identifier.fromWords "widget") "GET" "/widgets").2.2.2.1
      "Pet.getWidget" "Pet" "getWidget" (by decide) (by decide) (by decide),
   (c3_operation_id_rule (Identifier.fromWords "widget") "GET" "/widgets").2.2.2.2.2
      [("GET", "/widgets", some "getWidget")] ["getWidget"] (by rfl)⟩

/-- C5: each recursive call of the resolver extends the parent context by
exactly one segment naming the position — `additionalProperties` for a
map's value schema, `items` for an array's item schema, and `oneOf[i]`
for the i-th union branch — so an error at any depth names the fully
qualified path; the last conjunct exhibits this composition three
levels deep. -/
theorem c5_context_composition :
    (∀ (ets : List String) (sub : Schema) (imports : Imports) (ctx : String),
      getRuntimeType ets
          (Schema.mk none none (some "object") none none none (some (.inr sub)) none
            none [])
          imports ctx =
        (getRuntimeType ets sub imports (ctx ++ "." ++ "additionalProperties")).map
          (fun p => (mapRT ctx p.1, p.2))) ∧
    (∀ (ets : List String) (it : Schema) (imports : Imports) (ctx : String),
      getRuntimeType ets
          (Schema.mk none none (some "array") none none none none (some it) none [])
          imports ctx =
        (getRuntimeType ets it imports (ctx ++ "." ++ "items")).map
          (fun p => (arrayRT p.1, p.2))) ∧
    (∀ (ets : List String) (bs : List Schema) (imports : Imports) (ctx : String),
      getRuntimeType ets
          (Schema.mk none (some bs) none none none none none none none [])
          imports ctx =
        (getRuntimeTypeList ets bs imports ctx 0).map (fun p => (oneOfRT p.1, p.2))) ∧
    (∀ (ets : List String) (b : Schema) (rest : List Schema) (imports : Imports)
        (ctx : String) (idx : Nat),
      getRuntimeTypeList ets (b :: rest) imports ctx idx =
        (do
          let (rt, i1) ← getRuntimeType ets b imports
            (ctx ++ "." ++ ("oneOf[" ++ toString idx ++ "]"))
          let (rts, i2) ← getRuntimeTypeList ets rest i1 ctx (idx + 1)
          pure (rt :: rts, i2))) ∧
    (∀ (ets : List String) (imports : Imports) (ctx : String),
      getRuntimeType ets
          (Schema.mk none none (some "object") none none none
            (some (.inr (Schema.mk none
              (some [Schema.mk none none (some "array") none none none none
                (some (Schema.mk none none none none none none none none none []))
                none []])
              none none none none none none none [])))
            none none [])
          imports ctx =
        .error ("Unexpected type 'undefined' of '" ++
          (ctx ++ ".additionalProperties.oneOf[0].items'"))) := by
  have hseg : ∀ (a : String) (seg : String), a ++ "." ++ seg = a ++ ("." ++ seg) :=
    fun a seg => String.append_assoc a "." seg
  refine ⟨?_, ?_, ?_, ?_, ?_⟩
  · intro ets sub imports ctx
    have hctx : ctx ++ "." ++ "additionalProperties" = ctx ++ ".additionalProperties" := by
      rw [String.append_assoc]; rfl
    rw [hctx]
    cases h : getRuntimeType ets sub imports (ctx ++ ".additionalProperties") with
    | error e =>
      simp [getRuntimeType, Schema.propsRemaining, Schema.keys, optKey, h,
        Except.map, Bind.bind, Except.bind]
      rfl
    | ok p =>
      obtain ⟨rt, i1⟩ := p
      simp [getRuntimeType, Schema.propsRemaining, Schema.keys, optKey, h,
        Except.map, Bind.bind, Except.bind]
      rfl
  · intro ets it imports ctx
    have hctx : ctx ++ "." ++ "items" = ctx ++ ".items" := by
      rw [String.append_assoc]; rfl
    rw [hctx]
    cases h : getRuntimeType ets it imports (ctx ++ ".items") with
    | error e =>
      simp [getRuntimeType, Schema.propsRemaining, Schema.keys, optKey, h,
        Except.map, Bind.bind, Except.bind]
      rfl
    | ok p =>
      obtain ⟨rt, i1⟩ := p
      simp [getRuntimeType, Schema.propsRemaining, Schema.keys, optKey, h,
        Except.map, Bind.bind, Except.bind]
      rfl
  · intro ets bs imports ctx
    cases h : getRuntimeTypeList ets bs imports ctx 0 with
    | error e =>
      simp [getRuntimeType, Schema.propsRemaining, Schema.keys, optKey, h,
        Except.map, Bind.bind, Except.bind]
      rfl
    | ok p =>
      obtain ⟨rts, i1⟩ := p
      simp [getRuntimeType, Schema.propsRemaining, Schema.keys, optKey, h,
        Except.map, Bind.bind, Except.bind]
      rfl
  · intro ets b rest imports ctx idx
    have hctx : ctx ++ "." ++ ("oneOf[" ++ toString idx ++ "]") =
        ctx ++ ".oneOf[" ++ toString idx ++ "]" := by
      simp only [String.append_assoc]
      congr 1
    rw [hctx]
    rfl
  · intro ets imports ctx
    simp [getRuntimeType, getRuntimeTypeList, Schema.propsRemaining, Schema.keys,
      optKey, jsStrField, Except.map, Bind.bind, Except.bind]
    simp only [String.append_assoc]
    rfl

/-! ## Supporting lemmas for the import render -/

/-- Head unfolding of the comparator. -/
theorem charListLe_cons (x y : Char) (as bs : List Char) :
    charListLe (x :: as) (y :: bs) = true ↔
      x.toNat < y.toNat ∨ (x.toNat = y.toNat ∧ charListLe as bs = true) := by
  by_cases h1 : x.toNat < y.toNat
  · simp [charListLe, h1]
  · by_cases h2 : y.toNat < x.toNat
    · simp [charListLe, h1, h2]
      omega
    · have he : x.toNat = y.toNat := by omega
      simp [charListLe, h1, h2, he]

theorem charListLe_total : ∀ a b, charListLe a b = true ∨ charListLe b a = true := by
  intro a
  induction a with
  | nil => intro b; left; rfl
  | cons x as ih =>
    intro b
    cases b with
    | nil => right; rfl
    | cons y bs =>
      rcases Nat.lt_trichotomy x.toNat y.toNat with h | h | h
      · left; exact (charListLe_cons _ _ _ _).mpr (Or.inl h)
      · rcases ih bs with hr | hr
        · left; exact (charListLe_cons _ _ _ _).mpr (Or.inr ⟨h, hr⟩)
        · right; exact (charListLe_cons _ _ _ _).mpr (Or.inr ⟨h.symm, hr⟩)
      · right; exact (charListLe_cons _ _ _ _).mpr (Or.inl h)

theorem charListLe_trans : ∀ a b c, charListLe a b = true → charListLe b c = true →
    charListLe a c = true := by
  intro a
  induction a with
  | nil => intro b c _ _; rfl
  | cons x as ih =>
    intro b c hab hbc
    cases b with
    | nil => simp [charListLe] at hab
    | cons y bs =>
      cases c with
      | nil => simp [charListLe] at hbc
      | cons z cs =>
        rcases (charListLe_cons _ _ _ _).mp hab with h1 | ⟨h1, h1r⟩ <;>
          rcases (charListLe_cons _ _ _ _).mp hbc with h2 | ⟨h2, h2r⟩
        · exact (charListLe_cons _ _ _ _).mpr (Or.inl (by omega))
        · exact (charListLe_cons _ _ _ _).mpr (Or.inl (by omega))
        · exact (charListLe_cons _ _ _ _).mpr (Or.inl (by omega))
        · exact (charListLe_cons _ _ _ _).mpr (Or.inr ⟨by omega, ih bs cs h1r h2r⟩)

theorem charListLe_antisymm : ∀ a b, charListLe a b = true → charListLe b a = true →
    a = b := by
  intro a
  induction a with
  | nil =>
    intro b _ hba
    cases b with
    | nil => rfl
    | cons y bs => simp [charListLe] at hba
  | cons x as ih =>
    intro b hab hba
    cases b with
    | nil => simp [charListLe] at hab
    | cons y bs =>
      rcases (charListLe_cons _ _ _ _).mp hab with h1 | ⟨h1, h1r⟩ <;>
        rcases (charListLe_cons _ _ _ _).mp hba with h2 | ⟨h2, h2r⟩
      · omega
      · omega
      · omega
      · have hxy : x = y := Char.eq_of_val_eq (by
          have : x.val.toNat = y.val.toNat := h1
          exact UInt32.toNat.inj this)
        rw [hxy, ih bs h1r h2r]

theorem pathLe_antisymm (a b : String) (hab : pathLe a b = true)
    (hba : pathLe b a = true) : a = b := by
  obtain ⟨la⟩ := a
  obtain ⟨lb⟩ := b
  have := charListLe_antisymm la lb hab hba
  rw [this]

instance pathLeRel : DecidableRel (fun a b : String => pathLe a b = true) :=
  fun _ _ => inferInstanceAs (Decidable (_ = true))

instance pathLeTotal : IsTotal String (fun a b => pathLe a b = true) :=
  ⟨fun a b => charListLe_total a.data b.data⟩

instance pathLeTrans : IsTrans String (fun a b => pathLe a b = true) :=
  ⟨fun a b c => charListLe_trans a.data b.data c.data⟩

instance entryKeyLeRel :
    DecidableRel (fun a b : String × ImportEntry => pathLe a.1 b.1 = true) :=
  fun _ _ => inferInstanceAs (Decidable (_ = true))

instance entryKeyLeTotal :
    IsTotal (String × ImportEntry) (fun a b => pathLe a.1 b.1 = true) :=
  ⟨fun a b => charListLe_total a.1.data b.1.data⟩

instance entryKeyLeTrans :
    IsTrans (String × ImportEntry) (fun a b => pathLe a.1 b.1 = true) :=
  ⟨fun a b c => charListLe_trans a.1.data b.1.data c.1.data⟩

/-- Two sorted lists that are permutations of each other and whose first
components are duplicate-free are equal (sorting by module path is
unambiguous because paths are unique keys). -/
theorem sorted_perm_nodup_keys_eq :
    ∀ (l1 l2 : List (String × Option String × List String)),
      l1.Perm l2 →
      l1.Pairwise (fun a b => pathLe a.1 b.1 = true) →
      l2.Pairwise (fun a b => pathLe a.1 b.1 = true) →
      (l1.map Prod.fst).Nodup →
      l1 = l2 := by
  intro l1
  induction l1 with
  | nil =>
    intro l2 hp _ _ _
    exact hp.symm.eq_nil.symm
  | cons a t1 ih =>
    intro l2 hp hs1 hs2 hnd
    cases l2 with
    | nil =>
      have := hp.eq_nil
      simp at this
    | cons b t2 =>
      have hab : a = b := by
        have hbmem : b ∈ a :: t1 := hp.symm.subset (List.mem_cons_self b t2)
        have hamem : a ∈ b :: t2 := hp.subset (List.mem_cons_self a t1)
        rcases List.mem_cons.mp hbmem with hba | hbt1
        · exact hba.symm
        rcases List.mem_cons.mp hamem with hab | hat2
        · exact hab
        have h1 : pathLe a.1 b.1 = true := (List.pairwise_cons.mp hs1).1 b hbt1
        have h2 : pathLe b.1 a.1 = true := (List.pairwise_cons.mp hs2).1 a hat2
        have hk : a.1 = b.1 := pathLe_antisymm _ _ h1 h2
        have hmem : a.1 ∈ t1.map Prod.fst := List.mem_map.mpr ⟨b, hbt1, hk.symm⟩
        rw [List.map_cons] at hnd
        exact absurd hmem (List.nodup_cons.mp hnd).1
      subst hab
      have ht : t1.Perm t2 := hp.cons_inv
      rw [List.map_cons] at hnd
      have htl := ih t2 ht (List.pairwise_cons.mp hs1).2 (List.pairwise_cons.mp hs2).2
        (List.nodup_cons.mp hnd).2
      rw [htl]

/-- The key of a normalised entry is the module path. -/
theorem normalizeEntry_fst (p : String × ImportEntry) :
    (normalizeEntry p).1 = p.1 := rfl

/-- C8: the rendered import block lists one statement per module path with
the paths in sorted order and each statement's named symbols sorted;
and it is a function of the accumulated content only — two states whose
entries agree up to insertion order (same paths, same default aliases,
same named-symbol sets) render byte-identically.  (Rendering is a pure
function of the state, so repeated renders without mutation are
trivially byte-identical in this embedding.) -/
theorem c8_import_render (i1 i2 : Imports)
    (hperm : (i1.imports.map normalizeEntry).Perm (i2.imports.map normalizeEntry))
    (hnd : (i1.imports.map Prod.fst).Nodup) :
    Imports.render i1 = Imports.render i2 ∧
    List.Pairwise (fun a b : String × ImportEntry => pathLe a.1 b.1 = true)
      (i1.imports.insertionSort (fun a b => pathLe a.1 b.1 = true)) ∧
    (∀ p ∈ i1.imports,
      List.Pairwise (fun a b : String => pathLe a b = true)
        (p.2.named.insertionSort (fun a b => pathLe a b = true))) := by
  refine ⟨?_, List.sorted_insertionSort _ _, fun p _ => List.sorted_insertionSort _ _⟩
  have hperm1 : (List.map normalizeEntry
      (i1.imports.insertionSort (fun a b => pathLe a.1 b.1 = true))).Perm
      (List.map normalizeEntry
        (i2.imports.insertionSort (fun a b => pathLe a.1 b.1 = true))) :=
    ((List.perm_insertionSort _ i1.imports).map normalizeEntry).trans
      (hperm.trans ((List.perm_insertionSort _ i2.imports).map normalizeEntry).symm)
  have hsorted1 : (List.map normalizeEntry
      (i1.imports.insertionSort (fun a b => pathLe a.1 b.1 = true))).Pairwise
      (fun a b => pathLe a.1 b.1 = true) :=
    List.pairwise_map.mpr
      (List.sorted_insertionSort
        (fun a b : String × ImportEntry => pathLe a.1 b.1 = true) i1.imports)
  have hsorted2 : (List.map normalizeEntry
      (i2.imports.insertionSort (fun a b => pathLe a.1 b.1 = true))).Pairwise
      (fun a b => pathLe a.1 b.1 = true) :=
    List.pairwise_map.mpr
      (List.sorted_insertionSort
        (fun a b : String × ImportEntry => pathLe a.1 b.1 = true) i2.imports)
  have hcomp : (Prod.fst ∘ normalizeEntry) =
      (Prod.fst : String × ImportEntry → String) := funext (fun p => rfl)
  have hnods : (List.map Prod.fst (List.map normalizeEntry
      (i1.imports.insertionSort (fun a b => pathLe a.1 b.1 = true)))).Nodup := by
    rw [List.map_map, hcomp]
    exact ((List.perm_insertionSort
      (fun a b : String × ImportEntry => pathLe a.1 b.1 = true)
      i1.imports).map Prod.fst).nodup_iff.mpr hnd
  have key := sorted_perm_nodup_keys_eq _ _ hperm1 hsorted1 hsorted2 hnods
  have hrw : ∀ l : List (String × ImportEntry),
      l.map (fun p => renderNormEntry (normalizeEntry p)) =
        (l.map normalizeEntry).map renderNormEntry := by
    intro l
    rw [List.map_map]
    rfl
  unfold Imports.render
  rw [hrw, hrw, key]

/-- Witness for C8: two accumulators holding the same registrations in a
different insertion order (including differently ordered named sets)
render identically. -/
theorem c8_import_render_witness :
    Imports.render
        (Imports.mk none [("./b", ⟨none, ["y", "x"]⟩), ("./a", ⟨some "D", ["z"]⟩)]) =
      Imports.render
        (Imports.mk none [("./a", ⟨some "D", ["z"]⟩), ("./b", ⟨none, ["x", "y"]⟩)]) ∧
    List.Pairwise (fun a b : String × ImportEntry => pathLe a.1 b.1 = true)
      ((Imports.mk none [("./b", ⟨none, ["y", "x"]⟩),
        ("./a", ⟨some "D", ["z"]⟩)]).imports.insertionSort
          (fun a b => pathLe a.1 b.1 = true)) ∧
    (∀ p ∈ (Imports.mk none [("./b", ⟨none, ["y", "x"]⟩),
        ("./a", ⟨some "D", ["z"]⟩)]).imports,
      List.Pairwise (fun a b : String => pathLe a b = true)
        (p.2.named.insertionSort (fun a b => pathLe a b = true))) :=
  c8_import_render
    (Imports.mk none [("./b", ⟨none, ["y", "x"]⟩), ("./a", ⟨some "D", ["z"]⟩)])
    (Imports.mk none [("./a", ⟨some "D", ["z"]⟩), ("./b", ⟨none, ["x", "y"]⟩)])
    (by decide) (by decide)

end OpenapiTs
